import Mathlib

/-!
Shallow embedding of the Personalized Calendar backend
(`src/main.py`, `src/schemas.py`).

Data model (from `schemas.py`): a `CalendarPage` has a month in [1,12] and
optional `image_url` / `note`; a `Calendar` has a title, a year in
[1900,3000], a `start_month` in [1,12], a style, a list of pages and an
optional owner.  Pydantic range validation is modelled by explicit checks
returning `Except Err`.

The document store (MongoDB collection "calendar") is modelled as an
association list from object-id strings to stored documents; `db is None`
(store unreachable) is modelled by an `Option Store` argument.  Timestamps
(`datetime.utcnow()`) are modelled by an explicit `now : Nat` argument.
-/

namespace CalendarApp

/-- Error taxonomy of the spec: HTTP 400 month/year range errors are
`InvalidField`, a malformed ObjectId is `InvalidIdentifier`, a missing
document is `NotFound` (404), `db is None` is `StoreUnavailable` (500). -/
inductive Err where
  | InvalidField
  | InvalidIdentifier
  | NotFound
  | StoreUnavailable
deriving Repr, DecidableEq

deriving instance DecidableEq for Except

/-- Model of `CalendarPage` in `schemas.py`: month 1-12, optional image URL
and note. -/
structure CalendarPage where
  month : Int
  image_url : Option String := none
  note : Option String := none
deriving Repr, DecidableEq

/-- Model of `Calendar` in `schemas.py` (as inserted by `create_calendar`). -/
structure Calendar where
  title : String
  year : Int
  start_month : Int
  style : String
  pages : List CalendarPage
  owner : Option String
deriving Repr, DecidableEq

/-- Pydantic construction `CalendarPage(month=month)`: validates
`ge=1, le=12` on `month` (schemas.py line 10), other fields default to
`None`. -/
def mkCalendarPage (month : Int) : Except Err CalendarPage :=
  if 1 ≤ month ∧ month ≤ 12 then
    .ok { month := month, image_url := none, note := none }
  else .error .InvalidField

/-- Pydantic construction `Calendar(...)`: validates `year` in [1900,3000]
and `start_month` in [1,12] (schemas.py lines 16-17); `title`, `style`,
`owner` are unconstrained. -/
def mkCalendar (title : String) (year start_month : Int) (style : String)
    (pages : List CalendarPage) (owner : Option String) : Except Err Calendar :=
  if (1900 ≤ year ∧ year ≤ 3000) ∧ (1 ≤ start_month ∧ start_month ≤ 12) then
    .ok { title := title, year := year, start_month := start_month,
          style := style, pages := pages, owner := owner }
  else .error .InvalidField

/-- Month placed at 0-indexed loop position `i`
(`main.py` line 92: `((payload.start_month - 1 + i) % 12) + 1`; Python `%`
on a positive modulus agrees with `Int.emod`). -/
def monthAt (start_month : Int) (i : Nat) : Int :=
  (start_month - 1 + (i : Int)) % 12 + 1

/-- The page-building loop of `create_calendar` (`main.py` lines 90-93):
`for i in range(12): pages.append(CalendarPage(month=...))`, with the
pydantic validation of each page construction.  The argument list is the
sequence of loop indices. -/
def buildPages (start_month : Int) : List Nat → Except Err (List CalendarPage)
  | [] => .ok []
  | i :: rest => do
    let p ← mkCalendarPage (monthAt start_month i)
    let ps ← buildPages start_month rest
    pure (p :: ps)

/-- Request body of `POST /calendars` (`main.py` `CalendarCreate`). -/
structure CalendarCreate where
  title : String
  year : Int
  start_month : Int := 1
  style : String := "classic"
  owner : Option String := none
deriving Repr, DecidableEq

/-- Model of `create_calendar` (`main.py` lines 87-103): builds 12 pages starting at
`start_month` and wrapping, then constructs the `Calendar` document that is
inserted into the store.  Pydantic validation errors surface as
`InvalidField`. -/
def create_calendar (payload : CalendarCreate) : Except Err Calendar := do
  let pages ← buildPages payload.start_month (List.range 12)
  mkCalendar payload.title payload.year payload.start_month payload.style
    pages payload.owner

/-- Closed form of the page list built by `create_calendar` (proved equal to
the loop's result in `buildPages_ok`). -/
def makePages (start_month : Int) : List CalendarPage :=
  (List.range 12).map fun i =>
    { month := monthAt start_month i, image_url := none, note := none }

/-- A stored calendar document: the inserted `Calendar` fields plus the
`updated_at` timestamp set by `update_one` (`main.py` line 147). -/
structure CalendarDoc where
  title : String
  year : Int
  start_month : Int
  style : String
  pages : List CalendarPage
  owner : Option String
  updated_at : Option Nat := none
deriving Repr, DecidableEq

/-- Model of `bson.ObjectId(calendar_id)`: a string parses as an ObjectId exactly
when it is 24 hexadecimal characters; otherwise the constructor raises
(`main.py` lines 126-129, 157-160). -/
def parseObjectId (s : String) : Option String :=
  if s.length = 24 ∧ s.toList.all (fun c => c.isDigit ∨ ('a' ≤ c ∧ c ≤ 'f') ∨ ('A' ≤ c ∧ c ≤ 'F')) then
    some s
  else none

/-- Lookup of `db["calendar"].find_one({"_id": oid})`: first entry of the
collection with the given id. -/
def findDoc : List (String × CalendarDoc) → String → Option CalendarDoc
  | [], _ => none
  | kv :: rest, oid => if kv.1 = oid then some kv.2 else findDoc rest oid

/-- Model of `update_one({"_id": oid}, ...)`: replace the first entry with the given
id, leave everything else untouched. -/
def setDoc : List (String × CalendarDoc) → String → CalendarDoc → List (String × CalendarDoc)
  | [], _, _ => []
  | kv :: rest, oid, d => if kv.1 = oid then (kv.1, d) :: rest else kv :: setDoc rest oid d

/-- The document store: the MongoDB "calendar" collection keyed by
ObjectId string. -/
structure Store where
  calendar : List (String × CalendarDoc)
deriving Repr, DecidableEq

def Store.find_one (s : Store) (oid : String) : Option CalendarDoc :=
  findDoc s.calendar oid

def Store.update_one (s : Store) (oid : String) (d : CalendarDoc) : Store :=
  { calendar := setDoc s.calendar oid d }

/-- Request body of `PUT /calendars/{id}/pages/{month}` (`main.py`
`PageUpdate`): both fields optional. -/
structure PageUpdate where
  image_url : Option String := none
  note : Option String := none
deriving Repr, DecidableEq

/-- Field update of `main.py` lines 142-145: set `image_url` if the caller
supplied a non-null value, set `note` if the caller supplied a non-null
value; omitted fields are left unchanged. -/
def applyUpdate (p : CalendarPage) (payload : PageUpdate) : CalendarPage :=
  let p1 : CalendarPage :=
    match payload.image_url with
    | some u => { p with image_url := some u }
    | none => p
  match payload.note with
  | some n => { p1 with note := some n }
  | none => p1

/-- The page upsert of `main.py` lines 135-145: find the first page whose
month equals the target and mutate it in place; if there is none, append
`{"month": month}` and set the supplied fields on the new page. -/
def upsertPages (month : Int) (payload : PageUpdate) : List CalendarPage → List CalendarPage
  | [] => [applyUpdate { month := month } payload]
  | p :: ps =>
    if p.month = month then applyUpdate p payload :: ps
    else p :: upsertPages month payload ps

/-- Model of `update_calendar_page` (`main.py` lines 118-149), check order as in the
source: month range (line 121), store reachability (line 123), ObjectId
parse (lines 126-129), document lookup (lines 131-133), page upsert
(lines 135-145), then `update_one` persisting the new pages list together
with a refreshed `updated_at` (line 147).  `.ok store` models the
`{"status": "ok"}` response together with the store after the write. -/
def update_calendar_page (db : Option Store) (calendar_id : String)
    (month : Int) (payload : PageUpdate) (now : Nat) : Except Err Store :=
  if month < 1 ∨ month > 12 then .error .InvalidField
  else match db with
  | none => .error .StoreUnavailable
  | some store =>
    match parseObjectId calendar_id with
    | none => .error .InvalidIdentifier
    | some oid =>
      match store.find_one oid with
      | none => .error .NotFound
      | some doc =>
        let pages := upsertPages month payload doc.pages
        .ok (store.update_one oid
          { doc with pages := pages, updated_at := some now })

/-- Model of `get_calendar` (`main.py` lines 152-166), check order as in the source:
store reachability (line 155), ObjectId parse (lines 157-160), lookup
(lines 162-164); on success the document is returned with its identifier
normalized to the plain string `id` (line 165), modelled as the pair
`(id, doc)`. -/
def get_calendar (db : Option Store) (calendar_id : String) :
    Except Err (String × CalendarDoc) :=
  match db with
  | none => .error .StoreUnavailable
  | some store =>
    match parseObjectId calendar_id with
    | none => .error .InvalidIdentifier
    | some oid =>
      match store.find_one oid with
      | none => .error .NotFound
      | some doc => .ok (oid, doc)

/-! Concrete sample data, used to evaluate the operations on closed inputs. -/

/-- A well-formed ObjectId string (24 hexadecimal characters). -/
def sampleOid : String := "0123456789abcdef01234567"

/-- A second well-formed ObjectId string, absent from `sampleStore`. -/
def sparseOid : String := "abcdefabcdefabcdefabcdef"

/-- A stored calendar as produced by `create_calendar` with
`start_month = 4` (the end-to-end example of the spec). -/
def sampleDoc : CalendarDoc :=
  { title := "Team 2025", year := 2025, start_month := 4, style := "classic",
    pages := makePages 4, owner := none, updated_at := none }

/-- A calendar in the tolerated irregular state: only one page. -/
def sparseDoc : CalendarDoc :=
  { title := "Sparse", year := 2024, start_month := 1, style := "classic",
    pages := [{ month := 1 }], owner := none, updated_at := none }

def sampleStore : Store := { calendar := [(sampleOid, sampleDoc)] }

def sparseStore : Store := { calendar := [(sparseOid, sparseDoc)] }

/-- An update supplying only `image_url`. -/
def sampleUpdate : PageUpdate := { image_url := some "/uploads/x.jpg", note := none }

/-- An update supplying neither field. -/
def emptyUpdate : PageUpdate := { image_url := none, note := none }

/-- A valid creation request with `start_month = 4`. -/
def samplePayloadCreate : CalendarCreate := { title := "Team 2025", year := 2025, start_month := 4 }

/-- A valid creation request with an empty title. -/
def emptyTitlePayload : CalendarCreate := { title := "", year := 2025, start_month := 3 }

/-- The calendar document built by `create_calendar samplePayloadCreate`. -/
def sampleCal : Calendar :=
  { title := "Team 2025", year := 2025, start_month := 4, style := "classic",
    pages := makePages 4, owner := none }

/-- The store after updating month 4 of `sampleStore` with `sampleUpdate`
at time 7. -/
def sampleStore2 : Store :=
  { calendar := [(sampleOid,
      { sampleDoc with pages := upsertPages 4 sampleUpdate sampleDoc.pages,
                       updated_at := some 7 })] }

/-- The document stored in `sampleStore2`. -/
def sampleDoc2 : CalendarDoc :=
  { sampleDoc with pages := upsertPages 4 sampleUpdate sampleDoc.pages,
                   updated_at := some 7 }

/-! Lemmas about the creation path. -/

lemma monthAt_bounds (sm : Int) (i : Nat) : 1 ≤ monthAt sm i ∧ monthAt sm i ≤ 12 := by
  unfold monthAt
  have h1 : 0 ≤ (sm - 1 + (i : Int)) % 12 := Int.emod_nonneg _ (by decide)
  have h2 : (sm - 1 + (i : Int)) % 12 < 12 := Int.emod_lt_of_pos _ (by decide)
  omega

lemma mkCalendarPage_monthAt (sm : Int) (i : Nat) :
    mkCalendarPage (monthAt sm i) =
      .ok { month := monthAt sm i, image_url := none, note := none } := by
  unfold mkCalendarPage
  rw [if_pos (monthAt_bounds sm i)]

lemma buildPages_ok (sm : Int) (l : List Nat) :
    buildPages sm l =
      .ok (l.map fun i => { month := monthAt sm i, image_url := none, note := none }) := by
  induction l with
  | nil => rfl
  | cons i rest ih =>
    rw [buildPages, mkCalendarPage_monthAt, ih]
    rfl

lemma create_calendar_ok (payload : CalendarCreate)
    (hy : 1900 ≤ payload.year ∧ payload.year ≤ 3000)
    (hm : 1 ≤ payload.start_month ∧ payload.start_month ≤ 12) :
    create_calendar payload =
      .ok { title := payload.title, year := payload.year,
            start_month := payload.start_month, style := payload.style,
            pages := makePages payload.start_month, owner := payload.owner } := by
  unfold create_calendar
  rw [buildPages_ok]
  show mkCalendar _ _ _ _ _ _ = _
  unfold mkCalendar
  rw [if_pos ⟨hy, hm⟩]
  rfl

lemma create_calendar_invalid (payload : CalendarCreate)
    (h : ¬((1900 ≤ payload.year ∧ payload.year ≤ 3000) ∧
           (1 ≤ payload.start_month ∧ payload.start_month ≤ 12))) :
    create_calendar payload = .error .InvalidField := by
  unfold create_calendar
  rw [buildPages_ok]
  show mkCalendar _ _ _ _ _ _ = _
  unfold mkCalendar
  rw [if_neg h]

lemma create_calendar_ok_inv (payload : CalendarCreate) (cal : Calendar)
    (h : create_calendar payload = .ok cal) :
    (1900 ≤ payload.year ∧ payload.year ≤ 3000) ∧
    (1 ≤ payload.start_month ∧ payload.start_month ≤ 12) ∧
    cal = { title := payload.title, year := payload.year,
            start_month := payload.start_month, style := payload.style,
            pages := makePages payload.start_month, owner := payload.owner } := by
  by_cases hv : (1900 ≤ payload.year ∧ payload.year ≤ 3000) ∧
      (1 ≤ payload.start_month ∧ payload.start_month ≤ 12)
  · rw [create_calendar_ok payload hv.1 hv.2] at h
    exact ⟨hv.1, hv.2, (Except.ok.injEq _ _ ▸ h).symm⟩
  · rw [create_calendar_invalid payload hv] at h
    exact absurd h (by simp)

lemma makePages_perm (sm : Int) (h1 : 1 ≤ sm) (h2 : sm ≤ 12) :
    List.Perm ((makePages sm).map CalendarPage.month)
      [1, 2, 3, 4, 5, 6, 7, 8, 9, 10, 11, 12] := by
  interval_cases sm <;> decide

lemma makePages_nodup (sm : Int) (h1 : 1 ≤ sm) (h2 : sm ≤ 12) :
    ((makePages sm).map CalendarPage.month).Nodup := by
  interval_cases sm <;> decide

/-! Lemmas about the store. -/

lemma findDoc_setDoc_self (l : List (String × CalendarDoc)) (oid : String)
    (d0 d : CalendarDoc) (h : findDoc l oid = some d0) :
    findDoc (setDoc l oid d) oid = some d := by
  induction l with
  | nil => simp [findDoc] at h
  | cons kv rest ih =>
    by_cases hk : kv.1 = oid
    · simp [findDoc, setDoc, hk]
    · rw [findDoc, if_neg hk] at h
      rw [setDoc, if_neg hk, findDoc, if_neg hk]
      exact ih h

lemma findDoc_setDoc_ne (l : List (String × CalendarDoc)) (oid x : String)
    (d : CalendarDoc) (h : x ≠ oid) :
    findDoc (setDoc l oid d) x = findDoc l x := by
  induction l with
  | nil => rfl
  | cons kv rest ih =>
    by_cases hk : kv.1 = oid
    · have hx : ¬kv.1 = x := fun hc => h (hc ▸ hk)
      rw [setDoc, if_pos hk, findDoc, if_neg hx, findDoc, if_neg hx]
    · rw [setDoc, if_neg hk]
      by_cases hx : kv.1 = x
      · rw [findDoc, if_pos hx, findDoc, if_pos hx]
      · rw [findDoc, if_neg hx, findDoc, if_neg hx]
        exact ih

lemma find_one_update_one_self (s : Store) (oid : String) (d0 d : CalendarDoc)
    (h : s.find_one oid = some d0) : (s.update_one oid d).find_one oid = some d :=
  findDoc_setDoc_self s.calendar oid d0 d h

lemma find_one_update_one_ne (s : Store) (oid x : String) (d : CalendarDoc)
    (h : x ≠ oid) : (s.update_one oid d).find_one x = s.find_one x :=
  findDoc_setDoc_ne s.calendar oid x d h

/-! Lemmas about the page update and upsert. -/

lemma applyUpdate_eq (p : CalendarPage) (pl : PageUpdate) :
    applyUpdate p pl =
      { month := p.month,
        image_url := match pl.image_url with
          | some u => some u
          | none => p.image_url,
        note := match pl.note with
          | some n => some n
          | none => p.note } := by
  cases h1 : pl.image_url <;> cases h2 : pl.note <;> simp [applyUpdate, h1, h2]

lemma applyUpdate_month (p : CalendarPage) (pl : PageUpdate) :
    (applyUpdate p pl).month = p.month := by
  rw [applyUpdate_eq]

lemma applyUpdate_idem (p : CalendarPage) (pl : PageUpdate) :
    applyUpdate (applyUpdate p pl) pl = applyUpdate p pl := by
  cases h1 : pl.image_url <;> cases h2 : pl.note <;> simp [applyUpdate, h1, h2]

lemma applyUpdate_fresh (m : Int) (pl : PageUpdate) :
    applyUpdate { month := m } pl =
      { month := m, image_url := pl.image_url, note := pl.note } := by
  cases h1 : pl.image_url <;> cases h2 : pl.note <;> simp [applyUpdate, h1, h2]

lemma upsertPages_not_found (month : Int) (pl : PageUpdate)
    (pages : List CalendarPage) (h : ∀ p ∈ pages, p.month ≠ month) :
    upsertPages month pl pages =
      pages ++ [{ month := month, image_url := pl.image_url, note := pl.note }] := by
  induction pages with
  | nil => simp [upsertPages, applyUpdate_fresh]
  | cons p ps ih =>
    rw [upsertPages, if_neg (h p (List.mem_cons_self p ps))]
    rw [ih fun q hq => h q (List.mem_cons_of_mem p hq)]
    rfl

lemma upsertPages_found (month : Int) (pl : PageUpdate)
    (pages : List CalendarPage) (j : Nat) (hj : j < pages.length)
    (hmonth : (pages.get ⟨j, hj⟩).month = month)
    (hfirst : ∀ k (hk : k < j), (pages.get ⟨k, Nat.lt_trans hk hj⟩).month ≠ month) :
    upsertPages month pl pages = pages.set j (applyUpdate (pages.get ⟨j, hj⟩) pl) := by
  induction pages generalizing j with
  | nil => exact absurd hj (Nat.not_lt_zero j)
  | cons p ps ih =>
    cases j with
    | zero =>
      simp only [List.get] at hmonth
      rw [upsertPages, if_pos hmonth]
      rfl
    | succ j' =>
      have hp : p.month ≠ month := by
        have := hfirst 0 (Nat.succ_pos j')
        simpa using this
      have hj' : j' < ps.length := Nat.lt_of_succ_lt_succ hj
      rw [upsertPages, if_neg hp]
      rw [ih j' hj' (by simpa using hmonth)
        (fun k hk => by simpa using hfirst (k + 1) (Nat.succ_lt_succ hk))]
      rfl

lemma exists_first_month (pages : List CalendarPage) (month : Int)
    (h : ∃ p ∈ pages, p.month = month) :
    ∃ j, ∃ hj : j < pages.length, (pages.get ⟨j, hj⟩).month = month ∧
      ∀ k (hk : k < j), (pages.get ⟨k, Nat.lt_trans hk hj⟩).month ≠ month := by
  induction pages with
  | nil => simp at h
  | cons p ps ih =>
    by_cases hp : p.month = month
    · exact ⟨0, Nat.succ_pos ps.length, hp, fun k hk => absurd hk (Nat.not_lt_zero k)⟩
    · obtain ⟨q, hq, hqm⟩ := h
      rcases List.mem_cons.mp hq with rfl | hq'
      · exact absurd hqm hp
      · obtain ⟨j, hj, hjm, hjf⟩ := ih ⟨q, hq', hqm⟩
        refine ⟨j + 1, Nat.succ_lt_succ hj, by simpa using hjm, ?_⟩
        intro k hk
        cases k with
        | zero => simpa using hp
        | succ k' => simpa using hjf k' (Nat.lt_of_succ_lt_succ hk)

lemma upsertPages_idem (month : Int) (pl : PageUpdate) (pages : List CalendarPage) :
    upsertPages month pl (upsertPages month pl pages) = upsertPages month pl pages := by
  induction pages with
  | nil =>
    rw [upsertPages, upsertPages, if_pos (by rw [applyUpdate_month]), applyUpdate_idem]
  | cons p ps ih =>
    by_cases hp : p.month = month
    · rw [upsertPages, if_pos hp, upsertPages,
        if_pos (by rw [applyUpdate_month]; exact hp), applyUpdate_idem]
    · rw [upsertPages, if_neg hp, upsertPages, if_neg hp, ih]

lemma upsertPages_map_month (month : Int) (pl : PageUpdate) (pages : List CalendarPage) :
    (upsertPages month pl pages).map CalendarPage.month = pages.map CalendarPage.month ∨
    (upsertPages month pl pages).map CalendarPage.month =
      pages.map CalendarPage.month ++ [month] := by
  induction pages with
  | nil => right; simp [upsertPages, applyUpdate_month]
  | cons p ps ih =>
    by_cases hp : p.month = month
    · left; simp [upsertPages, hp, applyUpdate_month]
    · rcases ih with he | he
      · left; simp [upsertPages, hp, he]
      · right; simp [upsertPages, hp, he]

lemma upsertPages_nodup (month : Int) (pl : PageUpdate) (pages : List CalendarPage)
    (h : (pages.map CalendarPage.month).Nodup) :
    ((upsertPages month pl pages).map CalendarPage.month).Nodup := by
  induction pages with
  | nil => simp [upsertPages, applyUpdate_month]
  | cons p ps ih =>
    rw [List.map_cons, List.nodup_cons] at h
    by_cases hp : p.month = month
    · rw [upsertPages, if_pos hp, List.map_cons, applyUpdate_month, List.nodup_cons]
      exact h
    · rw [upsertPages, if_neg hp, List.map_cons, List.nodup_cons]
      refine ⟨?_, ih h.2⟩
      intro hc
      rcases upsertPages_map_month month pl ps with he | he
      · rw [he] at hc
        exact h.1 hc
      · rw [he] at hc
        rcases List.mem_append.mp hc with hc' | hc'
        · exact h.1 hc'
        · exact hp (by simpa using hc')

/-! Lemmas about the update endpoint. -/

lemma update_ok (store : Store) (cid oid : String) (doc : CalendarDoc)
    (month : Int) (pl : PageUpdate) (now : Nat)
    (hm : 1 ≤ month ∧ month ≤ 12)
    (hcid : parseObjectId cid = some oid)
    (hdoc : store.find_one oid = some doc) :
    update_calendar_page (some store) cid month pl now =
      .ok (store.update_one oid
        { doc with pages := upsertPages month pl doc.pages, updated_at := some now }) := by
  have h1 : ¬(month < 1 ∨ month > 12) := by omega
  simp only [update_calendar_page, if_neg h1, hcid, hdoc]

lemma update_ok_inv (store : Store) (cid : String) (month : Int) (pl : PageUpdate)
    (now : Nat) (store' : Store)
    (h : update_calendar_page (some store) cid month pl now = .ok store') :
    (1 ≤ month ∧ month ≤ 12) ∧ ∃ oid doc, parseObjectId cid = some oid ∧
      store.find_one oid = some doc ∧
      store' = store.update_one oid
        { doc with pages := upsertPages month pl doc.pages, updated_at := some now } := by
  by_cases h1 : month < 1 ∨ month > 12
  · rw [update_calendar_page, if_pos h1] at h
    exact absurd h (by simp)
  · cases hcid : parseObjectId cid with
    | none =>
      rw [update_calendar_page, if_neg h1] at h
      simp only [hcid] at h
      exact absurd h (by simp)
    | some oid =>
      cases hdoc : store.find_one oid with
      | none =>
        rw [update_calendar_page, if_neg h1] at h
        simp only [hcid, hdoc] at h
        exact absurd h (by simp)
      | some doc =>
        rw [update_ok store cid oid doc month pl now (by omega) hcid hdoc] at h
        exact ⟨by omega, oid, doc, rfl, hdoc, ((Except.ok.injEq _ _) ▸ h).symm⟩


/-! Claim theorems. -/

/-- C1: for every valid creation request (year in [1900,3000], start_month
in [1,12]), `create_calendar` builds exactly 12 pages where the page at
0-indexed position `i` has month `((start_month - 1 + i) mod 12) + 1` — a
permutation of 1..12 starting at `start_month` and wrapping — and every
page starts with `image_url = none` and `note = none`. -/
theorem createCalendar_pages (payload : CalendarCreate)
    (hy : 1900 ≤ payload.year ∧ payload.year ≤ 3000)
    (hm : 1 ≤ payload.start_month ∧ payload.start_month ≤ 12) :
    ∃ cal, create_calendar payload = .ok cal ∧
      cal.pages.length = 12 ∧
      (∀ i : Fin cal.pages.length,
        (cal.pages.get i).month = (payload.start_month - 1 + (i.val : Int)) % 12 + 1 ∧
        (cal.pages.get i).image_url = none ∧
        (cal.pages.get i).note = none) ∧
      List.Perm (cal.pages.map CalendarPage.month)
        [1, 2, 3, 4, 5, 6, 7, 8, 9, 10, 11, 12] := by
  refine ⟨_, create_calendar_ok payload hy hm, ?_, ?_,
    makePages_perm payload.start_month hm.1 hm.2⟩
  · simp [makePages]
  · intro i
    simp [makePages, monthAt, List.get_eq_getElem]

/-- Witness for C1 at the end-to-end example of the spec
(`createCalendar("Team 2025", 2025, start_month=4)`). -/
theorem createCalendar_pages_witness :
    (1900 ≤ samplePayloadCreate.year ∧ samplePayloadCreate.year ≤ 3000) ∧
    (1 ≤ samplePayloadCreate.start_month ∧ samplePayloadCreate.start_month ≤ 12) ∧
    ∃ cal, create_calendar samplePayloadCreate = .ok cal ∧
      cal.pages.length = 12 ∧
      (∀ i : Fin cal.pages.length,
        (cal.pages.get i).month = (samplePayloadCreate.start_month - 1 + (i.val : Int)) % 12 + 1 ∧
        (cal.pages.get i).image_url = none ∧
        (cal.pages.get i).note = none) ∧
      List.Perm (cal.pages.map CalendarPage.month)
        [1, 2, 3, 4, 5, 6, 7, 8, 9, 10, 11, 12] :=
  ⟨by decide, by decide, createCalendar_pages samplePayloadCreate (by decide) (by decide)⟩

/-- C6: `update_calendar_page` with a month outside [1,12] fails with
`InvalidField`, regardless of whether the store is reachable, the
identifier is well formed, or the calendar exists: the month check is the
first check of the handler. -/
theorem updatePage_invalid_month (db : Option Store) (cid : String) (month : Int)
    (payload : PageUpdate) (now : Nat) (h : month < 1 ∨ month > 12) :
    update_calendar_page db cid month payload now = .error .InvalidField := by
  rw [update_calendar_page.eq_def, if_pos h]

/-- Witness for C6: month 13 on an unreachable store and malformed id. -/
theorem updatePage_invalid_month_witness :
    ((13 : Int) < 1 ∨ (13 : Int) > 12) ∧
    update_calendar_page none "zzz" 13 emptyUpdate 0 = .error .InvalidField :=
  ⟨by decide, updatePage_invalid_month none "zzz" 13 emptyUpdate 0 (by decide)⟩

/-- C7: with a reachable store, `get_calendar` fails with
`InvalidIdentifier` for every id that does not parse as an ObjectId, fails
with `NotFound` for every well-formed id matching no document, and
otherwise returns the full stored calendar with its identifier normalized
to a plain string. -/
theorem getCalendar_contract (store : Store) (cid : String) :
    (parseObjectId cid = none →
      get_calendar (some store) cid = .error .InvalidIdentifier) ∧
    (∀ oid, parseObjectId cid = some oid → store.find_one oid = none →
      get_calendar (some store) cid = .error .NotFound) ∧
    (∀ oid doc, parseObjectId cid = some oid → store.find_one oid = some doc →
      get_calendar (some store) cid = .ok (oid, doc)) := by
  refine ⟨fun h => ?_, fun oid h1 h2 => ?_, fun oid doc h1 h2 => ?_⟩
  · simp only [get_calendar, h]
  · simp only [get_calendar, h1, h2]
  · simp only [get_calendar, h1, h2]

/-- Witness for C7: a malformed id, an absent well-formed id, and a
present id on the sample store. -/
theorem getCalendar_contract_witness :
    get_calendar (some sampleStore) "zzz" = .error .InvalidIdentifier ∧
    get_calendar (some sampleStore) sparseOid = .error .NotFound ∧
    get_calendar (some sampleStore) sampleOid = .ok (sampleOid, sampleDoc) :=
  ⟨(getCalendar_contract sampleStore "zzz").1 (by decide),
   (getCalendar_contract sampleStore sparseOid).2.1 sparseOid (by decide) (by decide),
   (getCalendar_contract sampleStore sampleOid).2.2 sampleOid sampleDoc (by decide) (by decide)⟩

/-- C8 counterexample: with an unreachable store and a malformed
calendarId, `update_calendar_page` with a valid month fails with
`StoreUnavailable`, not `InvalidIdentifier`: the store-reachability check
(`main.py` line 123) runs before the ObjectId parse (line 126), contrary
to the claimed check order. -/
theorem updatePage_id_check_order_counterexample :
    (1 ≤ (1 : Int) ∧ (1 : Int) ≤ 12) ∧
    parseObjectId "not-a-valid-objectid" = none ∧
    update_calendar_page none "not-a-valid-objectid" 1 emptyUpdate 0 =
      .error .StoreUnavailable ∧
    update_calendar_page none "not-a-valid-objectid" 1 emptyUpdate 0 ≠
      .error .InvalidIdentifier := by
  decide

/-- C8 amended: for every updatePage call with a valid month, a reachable
store and a calendarId that does not parse as a valid store identifier,
the operation fails with `InvalidIdentifier`; the store-reachability check
precedes the identifier check, so with an unreachable store the same call
fails with `StoreUnavailable` instead. -/
theorem updatePage_invalid_id (store : Store) (cid : String) (month : Int)
    (payload : PageUpdate) (now : Nat)
    (hm : 1 ≤ month ∧ month ≤ 12) (hcid : parseObjectId cid = none) :
    update_calendar_page (some store) cid month payload now = .error .InvalidIdentifier ∧
    update_calendar_page none cid month payload now = .error .StoreUnavailable := by
  have h1 : ¬(month < 1 ∨ month > 12) := by omega
  constructor
  · simp only [update_calendar_page, if_neg h1, hcid]
  · simp only [update_calendar_page, if_neg h1]

/-- Witness for the amended C8: month 2 with a malformed id on the sample
store and on the unreachable store. -/
theorem updatePage_invalid_id_witness :
    (1 ≤ (2 : Int) ∧ (2 : Int) ≤ 12) ∧
    parseObjectId "zzz" = none ∧
    (update_calendar_page (some sampleStore) "zzz" 2 sampleUpdate 0 =
        .error .InvalidIdentifier ∧
      update_calendar_page none "zzz" 2 sampleUpdate 0 = .error .StoreUnavailable) :=
  ⟨by decide, by decide,
    updatePage_invalid_id sampleStore "zzz" 2 sampleUpdate 0 (by decide) (by decide)⟩

/-- C9: `create_calendar` fails with `InvalidField` exactly when the year
is outside [1900,3000] or `start_month` is outside [1,12]; every failure
is `InvalidField`; an empty title is accepted. -/
theorem createCalendar_validation (payload : CalendarCreate) :
    (create_calendar payload = .error .InvalidField ↔
      (payload.year < 1900 ∨ payload.year > 3000 ∨
       payload.start_month < 1 ∨ payload.start_month > 12)) ∧
    (∀ e, create_calendar payload = .error e → e = .InvalidField) ∧
    (payload.title = "" → 1900 ≤ payload.year → payload.year ≤ 3000 →
      1 ≤ payload.start_month → payload.start_month ≤ 12 →
      ∃ cal, create_calendar payload = .ok cal ∧ cal.title = "") := by
  by_cases hv : (1900 ≤ payload.year ∧ payload.year ≤ 3000) ∧
      (1 ≤ payload.start_month ∧ payload.start_month ≤ 12)
  · rw [create_calendar_ok payload hv.1 hv.2]
    refine ⟨⟨fun h => absurd h (by simp), fun h => by exfalso; omega⟩,
      fun e he => absurd he (by simp), fun ht _ _ _ _ => ⟨_, rfl, ht⟩⟩
  · rw [create_calendar_invalid payload hv]
    refine ⟨⟨fun _ => by omega, fun _ => rfl⟩,
      fun e he => ((Except.error.injEq _ _) ▸ he).symm,
      fun _ h1 h2 h3 h4 => absurd ⟨⟨h1, h2⟩, h3, h4⟩ hv⟩

/-- Witness for C9: a creation request with an empty title and valid
ranges succeeds. -/
theorem createCalendar_validation_witness :
    ∃ cal, create_calendar emptyTitlePayload = .ok cal ∧ cal.title = "" :=
  (createCalendar_validation emptyTitlePayload).2.2 (by decide) (by decide) (by decide)
    (by decide) (by decide)

/-- C2: when the calendar already has a page for the target month, the
only changes made by `update_calendar_page` are to that page's `image_url`
(only if supplied), that page's `note` (only if supplied) and the
calendar's `updated_at`; omitted fields of that page, every other page,
every other calendar field and every other stored calendar are left
unchanged. -/
theorem updatePage_frame (store : Store) (cid oid : String) (doc : CalendarDoc)
    (month : Int) (payload : PageUpdate) (now : Nat)
    (hm : 1 ≤ month ∧ month ≤ 12)
    (hcid : parseObjectId cid = some oid)
    (hdoc : store.find_one oid = some doc)
    (hpage : ∃ p ∈ doc.pages, p.month = month) :
    ∃ store', update_calendar_page (some store) cid month payload now = .ok store' ∧
      (∀ x, x ≠ oid → store'.find_one x = store.find_one x) ∧
      ∃ doc', store'.find_one oid = some doc' ∧
        doc'.title = doc.title ∧ doc'.year = doc.year ∧
        doc'.start_month = doc.start_month ∧ doc'.style = doc.style ∧
        doc'.owner = doc.owner ∧ doc'.updated_at = some now ∧
        doc'.pages.length = doc.pages.length ∧
        ∃ j, ∃ hj : j < doc.pages.length,
          (doc.pages.get ⟨j, hj⟩).month = month ∧
          (∀ k, k ≠ j → doc'.pages[k]? = doc.pages[k]?) ∧
          doc'.pages[j]? = some
            { month := (doc.pages.get ⟨j, hj⟩).month,
              image_url := match payload.image_url with
                | some u => some u
                | none => (doc.pages.get ⟨j, hj⟩).image_url,
              note := match payload.note with
                | some n => some n
                | none => (doc.pages.get ⟨j, hj⟩).note } := by
  obtain ⟨j, hj, hjm, hjf⟩ := exists_first_month doc.pages month hpage
  have hup : upsertPages month payload doc.pages =
      doc.pages.set j (applyUpdate (doc.pages.get ⟨j, hj⟩) payload) :=
    upsertPages_found month payload doc.pages j hj hjm hjf
  refine ⟨_, update_ok store cid oid doc month payload now hm hcid hdoc,
    fun x hx => find_one_update_one_ne store oid x _ hx,
    _, find_one_update_one_self store oid doc _ hdoc,
    rfl, rfl, rfl, rfl, rfl, rfl, ?_, j, hj, hjm, ?_, ?_⟩
  · show (upsertPages month payload doc.pages).length = doc.pages.length
    rw [hup, List.length_set]
  · intro k hk
    show (upsertPages month payload doc.pages)[k]? = doc.pages[k]?
    rw [hup]
    exact List.getElem?_set_ne (Ne.symm hk)
  · show (upsertPages month payload doc.pages)[j]? = _
    rw [hup, List.getElem?_set_eq_of_lt _ hj, applyUpdate_eq]

/-- Witness for C2: update of the existing month-4 page of the sample
calendar with only an image URL, at time 7. -/
theorem updatePage_frame_witness :
    (1 ≤ (4 : Int) ∧ (4 : Int) ≤ 12) ∧
    parseObjectId sampleOid = some sampleOid ∧
    sampleStore.find_one sampleOid = some sampleDoc ∧
    (∃ p ∈ sampleDoc.pages, p.month = 4) ∧
    (∃ store', update_calendar_page (some sampleStore) sampleOid 4 sampleUpdate 7 = .ok store' ∧
      (∀ x, x ≠ sampleOid → store'.find_one x = sampleStore.find_one x) ∧
      ∃ doc', store'.find_one sampleOid = some doc' ∧
        doc'.title = sampleDoc.title ∧ doc'.year = sampleDoc.year ∧
        doc'.start_month = sampleDoc.start_month ∧ doc'.style = sampleDoc.style ∧
        doc'.owner = sampleDoc.owner ∧ doc'.updated_at = some 7 ∧
        doc'.pages.length = sampleDoc.pages.length ∧
        ∃ j, ∃ hj : j < sampleDoc.pages.length,
          (sampleDoc.pages.get ⟨j, hj⟩).month = 4 ∧
          (∀ k, k ≠ j → doc'.pages[k]? = sampleDoc.pages[k]?) ∧
          doc'.pages[j]? = some
            { month := (sampleDoc.pages.get ⟨j, hj⟩).month,
              image_url := match sampleUpdate.image_url with
                | some u => some u
                | none => (sampleDoc.pages.get ⟨j, hj⟩).image_url,
              note := match sampleUpdate.note with
                | some n => some n
                | none => (sampleDoc.pages.get ⟨j, hj⟩).note }) :=
  ⟨by decide, by decide, by decide, by decide,
    updatePage_frame sampleStore sampleOid sampleOid sampleDoc 4 sampleUpdate 7
      (by decide) (by decide) (by decide) (by decide)⟩

/-- C3: `update_calendar_page` is idempotent on identical input: a second
application of the same `(month, image_url, note)` succeeds and leaves the
pages of every stored calendar exactly as after the first application
(only `updated_at` may differ). -/
theorem updatePage_idempotent (store : Store) (cid : String) (month : Int)
    (payload : PageUpdate) (now now' : Nat) (store' : Store)
    (h : update_calendar_page (some store) cid month payload now = .ok store') :
    ∃ store'', update_calendar_page (some store') cid month payload now' = .ok store'' ∧
      ∀ x, (store''.find_one x).map CalendarDoc.pages =
        (store'.find_one x).map CalendarDoc.pages := by
  obtain ⟨hm, oid, doc, hcid, hdoc, rfl⟩ :=
    update_ok_inv store cid month payload now store' h
  have hfind := find_one_update_one_self store oid doc
    { doc with pages := upsertPages month payload doc.pages, updated_at := some now } hdoc
  refine ⟨_, update_ok _ cid oid _ month payload now' hm hcid hfind, fun x => ?_⟩
  by_cases hx : x = oid
  · subst hx
    rw [find_one_update_one_self _ x _ _ hfind, hfind]
    simp [upsertPages_idem]
  · rw [find_one_update_one_ne _ oid x _ hx]

/-- Witness for C3: updating month 4 of the sample calendar twice with the
same payload. -/
theorem updatePage_idempotent_witness :
    update_calendar_page (some sampleStore) sampleOid 4 sampleUpdate 7 = .ok sampleStore2 ∧
    ∃ store'', update_calendar_page (some sampleStore2) sampleOid 4 sampleUpdate 9 = .ok store'' ∧
      ∀ x, (store''.find_one x).map CalendarDoc.pages =
        (sampleStore2.find_one x).map CalendarDoc.pages :=
  ⟨by decide,
    updatePage_idempotent sampleStore sampleOid 4 sampleUpdate 7 9 sampleStore2 (by decide)⟩

/-- C4: `update_calendar_page` with a valid month on an existing calendar
with no page for that month appends exactly one brand-new page for that
month, carrying exactly the caller-supplied fields, with no backfill of
other months. -/
theorem updatePage_append (store : Store) (cid oid : String) (doc : CalendarDoc)
    (month : Int) (payload : PageUpdate) (now : Nat)
    (hm : 1 ≤ month ∧ month ≤ 12)
    (hcid : parseObjectId cid = some oid)
    (hdoc : store.find_one oid = some doc)
    (hnone : ∀ p ∈ doc.pages, p.month ≠ month) :
    ∃ store', update_calendar_page (some store) cid month payload now = .ok store' ∧
      ∃ doc', store'.find_one oid = some doc' ∧
        doc'.pages = doc.pages ++
          [{ month := month, image_url := payload.image_url, note := payload.note }] := by
  refine ⟨_, update_ok store cid oid doc month payload now hm hcid hdoc,
    _, find_one_update_one_self store oid doc _ hdoc, ?_⟩
  exact upsertPages_not_found month payload doc.pages hnone

/-- Witness for C4: month 5 on the sparse calendar, which has only a
month-1 page. -/
theorem updatePage_append_witness :
    ∃ store', update_calendar_page (some sparseStore) sparseOid 5 sampleUpdate 3 = .ok store' ∧
      ∃ doc', store'.find_one sparseOid = some doc' ∧
        doc'.pages = sparseDoc.pages ++
          [{ month := 5, image_url := sampleUpdate.image_url, note := sampleUpdate.note }] :=
  updatePage_append sparseStore sparseOid sparseOid sparseDoc 5 sampleUpdate 3
    (by decide) (by decide) (by decide) (by decide)

/-- C5: the at-most-one-page-per-month invariant: any single
`update_calendar_page` call preserves distinctness of the month values of
a stored calendar's pages, and `create_calendar` establishes it. -/
theorem pages_month_nodup_invariant :
    (∀ (store : Store) (cid : String) (month : Int) (payload : PageUpdate)
        (now : Nat) (store' : Store) (oid : String) (doc doc' : CalendarDoc),
      update_calendar_page (some store) cid month payload now = .ok store' →
      store.find_one oid = some doc → store'.find_one oid = some doc' →
      (doc.pages.map CalendarPage.month).Nodup →
      (doc'.pages.map CalendarPage.month).Nodup) ∧
    (∀ (payload : CalendarCreate) (cal : Calendar),
      create_calendar payload = .ok cal →
      (cal.pages.map CalendarPage.month).Nodup) := by
  constructor
  · intro store cid month payload now store' oid doc doc' h hdoc hdoc' hnd
    obtain ⟨hm, oid0, doc0, hcid, hdoc0, rfl⟩ :=
      update_ok_inv store cid month payload now store' h
    by_cases hx : oid = oid0
    · subst hx
      rw [hdoc] at hdoc0
      injection hdoc0 with h1
      subst h1
      have h2 := find_one_update_one_self store oid doc
        { doc with pages := upsertPages month payload doc.pages, updated_at := some now } hdoc
      rw [h2] at hdoc'
      injection hdoc' with h3
      rw [← h3]
      exact upsertPages_nodup month payload doc.pages hnd
    · rw [find_one_update_one_ne store oid0 oid _ hx, hdoc] at hdoc'
      injection hdoc' with h1
      rw [← h1]
      exact hnd
  · intro payload cal h
    obtain ⟨hy, hm, hcal⟩ := create_calendar_ok_inv payload cal h
    rw [hcal]
    exact makePages_nodup payload.start_month hm.1 hm.2

/-- Witness for C5: the updated sample calendar and the freshly created
sample calendar both have pairwise-distinct page months. -/
theorem pages_month_nodup_invariant_witness :
    (sampleDoc2.pages.map CalendarPage.month).Nodup ∧
    (sampleCal.pages.map CalendarPage.month).Nodup :=
  ⟨pages_month_nodup_invariant.1 sampleStore sampleOid 4 sampleUpdate 7 sampleStore2
      sampleOid sampleDoc sampleDoc2 (by decide) (by decide) (by decide) (by decide),
   pages_month_nodup_invariant.2 samplePayloadCreate sampleCal (by decide)⟩

/-- C10: `update_calendar_page` with a valid month on an existing calendar
and neither `image_url` nor `note` supplied still succeeds and persists a
write refreshing `updated_at`; if no page for that month existed, it
appends a page with both fields unset. -/
theorem updatePage_empty_payload (store : Store) (cid oid : String) (doc : CalendarDoc)
    (month : Int) (payload : PageUpdate) (now : Nat)
    (hm : 1 ≤ month ∧ month ≤ 12)
    (hcid : parseObjectId cid = some oid)
    (hdoc : store.find_one oid = some doc)
    (hiu : payload.image_url = none) (hn : payload.note = none) :
    ∃ store', update_calendar_page (some store) cid month payload now = .ok store' ∧
      ∃ doc', store'.find_one oid = some doc' ∧ doc'.updated_at = some now ∧
        ((∀ p ∈ doc.pages, p.month ≠ month) →
          doc'.pages = doc.pages ++ [{ month := month, image_url := none, note := none }]) := by
  refine ⟨_, update_ok store cid oid doc month payload now hm hcid hdoc,
    _, find_one_update_one_self store oid doc _ hdoc, rfl, fun hnone => ?_⟩
  show upsertPages month payload doc.pages = _
  rw [upsertPages_not_found month payload doc.pages hnone, hiu, hn]

/-- Witness for C10: a fully empty update of the absent month 9 on the
sparse calendar, at time 5. -/
theorem updatePage_empty_payload_witness :
    ∃ store', update_calendar_page (some sparseStore) sparseOid 9 emptyUpdate 5 = .ok store' ∧
      ∃ doc', store'.find_one sparseOid = some doc' ∧ doc'.updated_at = some 5 ∧
        ((∀ p ∈ sparseDoc.pages, p.month ≠ 9) →
          doc'.pages = sparseDoc.pages ++ [{ month := 9, image_url := none, note := none }]) :=
  updatePage_empty_payload sparseStore sparseOid sparseOid sparseDoc 9 emptyUpdate 5
    (by decide) (by decide) (by decide) (by decide) (by decide)

end CalendarApp
